import Mathlib

set_option maxRecDepth 4000

/-!
Shallow embedding of the WIBARAB GeoJSON aggregation pipeline
(src/wibarab_geojson_varieties.py, with src/wibarab_geojson.py as the
earlier variant of get_geo_info).

Modelling conventions:
* Python strings are Lean String values.  The string primitives the script
  uses (split, replace, startswith, lstrip) are re-implemented below by
  structural recursion so that every definition evaluates inside the kernel.
* A Python dict is an insertion-ordered association list; assigning to an
  existing key replaces the value in place, a new key is appended.
* A Python set is modelled as an insertion-ordered duplicate-free list; its
  real iteration order is arbitrary, which matters only where noted.
* XML attributes that may be absent are Option String (None in Python).
  XPath queries of the script are modelled as the corresponding structural
  projections of the document model below.
* Fallible Python operations (list indexing, dict subscription, float
  conversion, attribute access on None) return Except String, the error
  text naming the Python exception class they raise.
* Python float() is modelled by the exact decimal value it parses
  (PyFloat below); the corpus coordinate strings are plain decimals.
-/

namespace Wibarab

/-- Python list indexing l[i]; raises IndexError when out of range. -/
def pyIndex {α : Type} (l : List α) (i : Nat) : Except String α :=
  match l[i]? with
  | some x => Except.ok x
  | none => Except.error "IndexError"

/-- Lookup in an insertion-ordered dict (Python d.get(k)); dict keys are
unique by construction, so looking up the first binding is the Python
lookup. -/
def dictGet? {κ ν : Type} [DecidableEq κ] : List (κ × ν) → κ → Option ν
  | [], _ => none
  | p :: ps, k => if p.1 = k then some p.2 else dictGet? ps k

/-- Python d.get(k, default). -/
def dictGetD {κ ν : Type} [DecidableEq κ] (m : List (κ × ν)) (k : κ) (d : ν) : ν :=
  (dictGet? m k).getD d

/-- Python d[k]; raises KeyError when the key is absent. -/
def pyDictGet {κ ν : Type} [DecidableEq κ] (m : List (κ × ν)) (k : κ) : Except String ν :=
  match dictGet? m k with
  | some v => Except.ok v
  | none => Except.error "KeyError"

/-- Python d[k] = v: replaces the value of the (unique) binding of the key
in place when it exists, keeping its position, otherwise appends the new
entry at the end. -/
def dictSet {κ ν : Type} [DecidableEq κ] : List (κ × ν) → κ → ν → List (κ × ν)
  | [], k, v => [(k, v)]
  | p :: ps, k, v => if p.1 = k then (k, v) :: ps else p :: dictSet ps k v

/-- Membership test used for the set and list(set(...)) models. -/
def listHas {α : Type} [DecidableEq α] : List α → α → Bool
  | [], _ => false
  | y :: ys, x => if y = x then true else listHas ys x

/-- Python set.add, with first-occurrence insertion order as the
representative iteration order of the set. -/
def insertSet (l : List String) (x : String) : List String :=
  if listHas l x then l else l ++ [x]

/-- Python list(set(l)): the duplicates are removed; CPython's iteration
order of a string set is hash-dependent, the embedding fixes the
first-occurrence order as representative. -/
def pySetList (l : List String) : List String :=
  l.foldl (fun acc x => if listHas acc x then acc else acc ++ [x]) []

/-- Python s.split(sep) for a one-character separator (the script only ever
splits on a single character): no merging of adjacent separators. -/
def pySplitCharAux (sep : Char) : List Char → List Char → List String
  | [], cur => [String.mk cur.reverse]
  | c :: cs, cur =>
    if c = sep then String.mk cur.reverse :: pySplitCharAux sep cs []
    else pySplitCharAux sep cs (c :: cur)

def pySplitChar (sep : Char) (s : String) : List String :=
  pySplitCharAux sep s.toList []

/-- Python l[-1] on the result of a split (a split result is never empty). -/
def pyLast (l : List String) : String := l.getLastD ""

/-- Python s.startswith(pre). -/
def pyStartsWith (s pre : String) : Bool :=
  pre.toList.isPrefixOf s.toList

/-- Python s.replace(old, new) replaces every non-overlapping occurrence,
scanning left to right; the script always passes a nonempty old.  The fuel
argument (instantiated with the length of the string) makes the recursion
structural. -/
def pyReplaceFuel (old new : List Char) : Nat → List Char → List Char
  | 0, l => l
  | _ + 1, [] => []
  | fuel + 1, c :: cs =>
    if old.isPrefixOf (c :: cs) ∧ old ≠ [] then
      new ++ pyReplaceFuel old new fuel ((c :: cs).drop old.length)
    else c :: pyReplaceFuel old new fuel cs

def pyReplace (s old new : String) : String :=
  String.mk (pyReplaceFuel old.toList new.toList s.toList.length s.toList)

/-- Python s.lstrip(h) for the single strip character used by the code. -/
def pyLstrip (stripChar : Char) (s : String) : String :=
  String.mk (s.toList.dropWhile (fun c => c = stripChar))

/-- The character class of the regular expression [\s,] used on coordinate
text (Python \s is space, tab, newline, carriage return, form feed and
vertical tab). -/
def isWsOrComma (c : Char) : Bool :=
  c = ' ' || c = ',' || c = '\t' || c = '\n' || c = '\r' || c = '\x0b' || c = '\x0c'

/-- re.split on a one-run-per-separator pattern such as [\s,]+ : the flag
records whether the scanner stands inside a separator run; boundary runs
produce empty tokens exactly as re.split does. -/
def reSplitAux (p : Char → Bool) : List Char → Bool → List Char → List String
  | [], true, _ => [""]
  | [], false, cur => [String.mk cur.reverse]
  | c :: cs, true, _ =>
    if p c then reSplitAux p cs true [] else reSplitAux p cs false [c]
  | c :: cs, false, cur =>
    if p c then String.mk cur.reverse :: reSplitAux p cs true []
    else reSplitAux p cs false (c :: cur)

/-- re.split(r"[\s,]+", s). -/
def reSplitWsComma (s : String) : List String :=
  reSplitAux isWsOrComma s.toList false []

/-- Exact decimal value mant / 10 ^ exp: the model of a parsed Python
float.  The corpus coordinates are plain decimal literals, for which this
representation is exact. -/
structure PyFloat where
  mant : Int
  exp : Nat
deriving DecidableEq, Repr

def PyFloat.toRat (d : PyFloat) : Rat := (d.mant : Rat) / ((10 : Rat) ^ d.exp)

def digitVal (c : Char) : Option Nat :=
  if '0' ≤ c ∧ c ≤ '9' then some (c.toNat - '0'.toNat) else none

def digitsVal : List Char → Option Nat → Option Nat
  | [], acc => acc
  | c :: cs, acc =>
    match acc, digitVal c with
    | some n, some d => digitsVal cs (some (n * 10 + d))
    | _, _ => none

/-- Python float(s) on the decimal-literal fragment the corpus uses:
optional sign, an integer part and an optional fractional part with at
least one digit overall; anything else raises ValueError.  (Python also
accepts exponents, infinities and nan, which never occur in coordinate
text.) -/
def pyFloat (s : String) : Except String PyFloat :=
  let cs := s.toList
  let signed : Int × List Char :=
    match cs with
    | '-' :: r => (-1, r)
    | '+' :: r => (1, r)
    | r => (1, r)
  let sign := signed.1
  let body := signed.2
  let intPart := body.takeWhile (fun c => c ≠ '.')
  let rest := body.dropWhile (fun c => c ≠ '.')
  match rest with
  | [] =>
    match digitsVal intPart (some 0), intPart with
    | some n, _ :: _ => Except.ok ⟨sign * (n : Int), 0⟩
    | _, _ => Except.error "ValueError"
  | _ :: frac =>
    if intPart.isEmpty ∧ frac.isEmpty then Except.error "ValueError"
    else
      match digitsVal intPart (some 0), digitsVal frac (some 0) with
      | some n, some f =>
        Except.ok ⟨sign * ((n : Int) * ((10 : Int) ^ frac.length) + (f : Int)), frac.length⟩
      | _, _ => Except.error "ValueError"

/-- Stable insertion into a sorted list: x goes in front of the first y
with le x y, so elements inserted earlier stay in front of equivalent
later ones. -/
def insertLe {α : Type} (le : α → α → Bool) (x : α) : List α → List α
  | [] => [x]
  | y :: ys => if le x y then x :: y :: ys else y :: insertLe le x ys

/-- Stable sort.  Python sorted()/list.sort() is a stable sort; any two
stable sorts under the same total preorder compute the same function, so
stable insertion sort models them exactly. -/
def sortStable {α : Type} (le : α → α → Bool) : List α → List α
  | [] => []
  | x :: xs => insertLe le x (sortStable le xs)

/-- Monadic map specialised to Except, evaluated left to right: the first
raised exception propagates, exactly like a Python comprehension. -/
def mapExcept {α β : Type} (f : α → Except String β) : List α → Except String (List β)
  | [] => Except.ok []
  | a :: as =>
    match f a with
    | Except.error e => Except.error e
    | Except.ok b =>
      match mapExcept f as with
      | Except.error e => Except.error e
      | Except.ok bs => Except.ok (b :: bs)

/-! ## The document model

Only the parts of the TEI documents that the script queries are modelled.
Field comments name the XPath the script uses for them. -/

/-- The tei:name child of a featureValueObservation; ref is its optional
ref attribute. -/
structure NameEl where
  ref : Option String
deriving DecidableEq, Repr

/-- A tei:item with an optional xml:id and the text of its tei:label
children (a label text may itself be None). -/
structure Item where
  xmlId : Option String
  labels : List (Option String)
deriving DecidableEq, Repr

/-- One wib:featureValueObservation element.  status is carried by the
ODD schema (completion status of the observation) but is never queried by
the script. -/
structure FVO where
  fvoId : Option String := none
  nameEl : Option NameEl := none
  placeRefs : List (Option String) := []
  status : Option String := none
  bibls : List (Option String) := []
  langs : List (Option String) := []
  persGrps : List (Option String × Option String) := []
  srcReps : List (Option String) := []
  examples : List (Option String) := []
  translations : List (Option String) := []
  notesGeneral : List (Option String) := []
  notesConstraint : List (Option String) := []
  notesException : List (Option String) := []
deriving DecidableEq, Repr

/-- One feature document of the corpus. -/
structure Doc where
  ftId : Option String := none
  titleText : Option String := none
  catRefTarget : Option String := none
  items : List Item := []
  fvos : List FVO := []
  extraPlaceRefs : List (Option String) := []
deriving DecidableEq, Repr

/-- A tei:location child of a place record; geoDdText is the plain text of
its first geo child carrying decls="#dd", when such a child exists. -/
structure GeoLocation where
  geoDdText : Option String
deriving DecidableEq, Repr

structure GeoPlace where
  xmlId : Option String
  locations : List GeoLocation
  placeNameTexts : List String
deriving DecidableEq, Repr

structure GeoDoc where
  places : List GeoPlace
deriving DecidableEq, Repr

/-- One entry of the bibliography table built by get_bibl_data and of the
src: placeholder records (field names follow the Python dict keys). -/
structure SourceRec where
  short_cit : Option String
  link : Option String
  decade_dc : List (String × String)
deriving DecidableEq, Repr

/-- Aggregated record of one value label inside one feature of one place
(the dict the script builds under fv_data[fv_name]).  The per-role person
group lists live in roles; an absent optional key is modelled by the empty
list or none, which is observationally the Python state because the script
only ever creates those keys together with a first element. -/
structure FvRec where
  sources : List (String × SourceRec)
  variety : Option String
  roles : List (String × List (Option String))
  source_representations : List String
  examples : List String
  translations : List String
  remarks : List String
  constraints : List String
  exceptions : List String
deriving DecidableEq, Repr

def emptyFvRec : FvRec := ⟨[], none, [], [], [], [], [], [], []⟩

/-- Output feature: id, geometry coordinates, display name and the
aggregated per-feature properties appended by get_feature_data. -/
structure GeoFeature where
  id : String
  coordinates : List PyFloat
  name : String
  docFeatures : List (Option String × List (Option String × FvRec))
deriving DecidableEq, Repr

/-- One element of the column_headings list of main. -/
inductive Heading where
  | nameH : Heading
  | featureH (key : Option String) (title : String) (count : Nat) (category : String) : Heading
deriving DecidableEq, Repr

structure GeoJson where
  column_headings : List Heading
  features : List GeoFeature
deriving DecidableEq, Repr

abbrev BiblData := List (String × SourceRec)
abbrev PersData := List (String × List (String × String))
abbrev VarietyTitle := List (String × String)
abbrev Counts := List (Option String × Nat)
abbrev FvDict := List (Option String × FvRec)

/-- All values of //tei:placeName/@ref of a document (the @ref XPath step
only yields attributes that exist). -/
def Doc.placeRefValues (d : Doc) : List String :=
  ((d.fvos.flatMap (fun v => v.placeRefs)) ++ d.extraPlaceRefs).filterMap id

/-- Truthiness of doc.any_xpath of the placeName filter for a place. -/
def Doc.mentionsPlace (d : Doc) (pid : String) : Bool :=
  (((d.fvos.flatMap (fun v => v.placeRefs)) ++ d.extraPlaceRefs).find?
    (fun r => decide (r = some pid))).isSome

/-- The fvo_xpath predicate: the FVO has a placeName child with this ref. -/
def FVO.matchesPlace (v : FVO) (pid : String) : Bool :=
  (v.placeRefs.find? (fun r => decide (r = some pid))).isSome

/-! ## first_pass_features -/

structure FirstPass where
  mentionedPlaces : List String
  ftNameDict : List (Option String × String)
  parentCategories : List (Option String × String)
deriving DecidableEq, Repr

/-- Loop body of first_pass_features: the title lookup [0] raises
IndexError on a document without a titleStmt/title; the category falls
back to "Missing" unless the catRef target starts with dmp:; every
nonempty placeName ref joins the mentioned-places set. -/
def first_pass_aux : List Doc → List String → List (Option String × String) →
    List (Option String × String) → Except String FirstPass
  | [], pl, names, cats => Except.ok ⟨pl, names, cats⟩
  | d :: ds, pl, names, cats =>
    match d.titleText with
    | none => Except.error "IndexError"
    | some t =>
      let names2 := dictSet names d.ftId t
      let cat :=
        match d.catRefTarget with
        | some c => if pyStartsWith c "dmp:" then pyReplace c "dmp:" "" else "Missing"
        | none => "Missing"
      let cats2 := dictSet cats d.ftId cat
      let pl2 := (d.placeRefValues.filter (fun p => p ≠ "")).foldl insertSet pl
      first_pass_aux ds pl2 names2 cats2

def first_pass_features (docs : List Doc) : Except String FirstPass :=
  first_pass_aux docs [] [] []

/-! ## get_geo_info -/

/-- XPath //tei:place[@xml:id=gid]/tei:location over the geo document. -/
def GeoDoc.locationsFor (g : GeoDoc) (gid : String) : List GeoLocation :=
  (g.places.filter (fun p => decide (p.xmlId = some gid))).flatMap (fun p => p.locations)

/-- XPath //tei:place[@xml:id=gid]//tei:placeName/text(). -/
def GeoDoc.nameTextsFor (g : GeoDoc) (gid : String) : List String :=
  (g.places.filter (fun p => decide (p.xmlId = some gid))).flatMap (fun p => p.placeNameTexts)

/-- The coordinate text processing of get_geo_info: split on [\s,]+,
reverse (the source stores latitude-longitude, GeoJSON wants
longitude-latitude), drop empty tokens, convert each to float. -/
def coordsOfGeoText (txt : String) : Except String (List PyFloat) :=
  mapExcept pyFloat ((reSplitWsComma txt).reverse.filter (fun c => c ≠ ""))

/-- One iteration of the place loop of get_geo_info.  Indexing the result
of place_id.split raises IndexError when the id has no colon; a place whose geo record has no
location element produces no feature at all; a location without the
decls="#dd" geo child produces an empty coordinate list. -/
def geoFeatureFor (geo : GeoDoc) (pid : String) : Except String (Option GeoFeature) :=
  match pyIndex (pySplitChar ':' pid) 1 with
  | Except.error e => Except.error e
  | Except.ok gid =>
    match geo.locationsFor gid with
    | [] => Except.ok none
    | loc :: _ =>
      let coordsE : Except String (List PyFloat) :=
        match loc.geoDdText with
        | none => Except.ok []
        | some txt => coordsOfGeoText txt
      match coordsE with
      | Except.error e => Except.error e
      | Except.ok lngLat =>
        Except.ok (some ⟨pid, lngLat, String.intercalate " / " (geo.nameTextsFor gid), []⟩)

def get_geo_info (places : List String) (geo : GeoDoc) : Except String (List GeoFeature) :=
  match mapExcept (geoFeatureFor geo) places with
  | Except.error e => Except.error e
  | Except.ok opts =>
    Except.ok (sortStable (fun a b => decide (a.id ≤ b.id)) (opts.filterMap id))

/-! ## get_feature_data -/

/-- The src: placeholder record the script writes literally. -/
def mkSrcPlaceholder (biblId : String) : SourceRec :=
  ⟨some biblId, some "", [("2020s", "high")]⟩

/-- One iteration of the source-reference loop: zot: references resolve
through the bibliography table (a missing id warns and adds nothing), src:
references store the literal placeholder, empty references are skipped
silently, and any other format warns and adds nothing. -/
def resolveSourceRef (bibl : BiblData) (acc : List (String × SourceRec) × List String)
    (ref : Option String) : List (String × SourceRec) × List String :=
  match ref with
  | none => acc
  | some r =>
    if r = "" then acc
    else if pyStartsWith r "zot:" then
      let biblId := pyReplace r "zot:" ""
      if biblId = "" then acc
      else
        match dictGet? bibl biblId with
        | some sr => (dictSet acc.1 biblId sr, acc.2)
        | none => (acc.1, acc.2 ++ ["Missing source data for " ++ biblId])
    else if pyStartsWith r "src:" then
      let biblId := pyReplace r "src:" ""
      (dictSet acc.1 biblId (mkSrcPlaceholder biblId), acc.2)
    else (acc.1, acc.2 ++ ["Unknown source reference format: " ++ r])

def processSourceRefs (bibl : BiblData) :
    List (Option String) → List (String × SourceRec) × List String →
    List (String × SourceRec) × List String
  | [], acc => acc
  | r :: rs, acc => processSourceRefs bibl rs (resolveSourceRef bibl acc r)

/-- The variety-id shortening: keep the token after the last backslash,
then after the last underscore, and drop .xml. -/
def varietyShortId (c : String) : String :=
  pyReplace (pyLast (pySplitChar '_' (pyLast (pySplitChar '\\' c)))) ".xml" ""

/-- The variety block of the FVO loop: warn when several tei:lang children
exist, shorten the first corresp that is present, look the token up in the
variety-title table, and fall back to "Missing" with a warning. -/
def resolveVariety (vt : VarietyTitle) (cur : Option String) (warns : List String)
    (langs : List (Option String)) : Option String × List String :=
  match langs with
  | [] => (cur, warns)
  | _ :: _ =>
    let warns2 := if langs.length > 1 then warns ++ ["Multiple varieties found"] else warns
    let ids := (langs.filterMap id).map varietyShortId
    match ids with
    | [] => (cur, warns2)
    | i :: _ =>
      match dictGet? vt i with
      | some t => (some t, warns2)
      | none => (some "Missing", warns2 ++ ["Missing title for variety " ++ i])

/-- setdefault(role, []).append(nm) on the per-role name lists. -/
def rolesAppend (roles : List (String × List (Option String))) (role : String)
    (nm : Option String) : List (String × List (Option String)) :=
  match dictGet? roles role with
  | some l => dictSet roles role (l ++ [nm])
  | none => roles ++ [(role, [nm])]

/-- One personGrp child: both role and corresp must be truthy; a
firstLanguage role stores the corresp itself, a pgr: corresp is looked up
in the person-group table (a miss warns and appends None), anything else
warns and appends the empty string. -/
def resolvePersGrp (pers : PersData) (acc : List (String × List (Option String)) × List String)
    (entry : Option String × Option String) :
    List (String × List (Option String)) × List String :=
  match entry with
  | (some role, some corresp) =>
    if role = "" ∨ corresp = "" then acc
    else if role = "firstLanguage" then (rolesAppend acc.1 role (some corresp), acc.2)
    else if pyStartsWith corresp "pgr:" then
      let cid := pyReplace corresp "pgr:" ""
      match dictGet? (dictGetD pers role []) cid with
      | some nm => (rolesAppend acc.1 role (some nm), acc.2)
      | none => (rolesAppend acc.1 role none,
          acc.2 ++ ["Could not find matching data for " ++ role ++ " " ++ cid])
    else (rolesAppend acc.1 role (some ""),
        acc.2 ++ ["Unknown person group reference format: " ++ corresp])
  | _ => acc

/-- The valid_* comprehensions: keep texts that exist and are nonempty. -/
def validTexts (l : List (Option String)) : List String :=
  l.filterMap (fun t =>
    match t with
    | some s => if s = "" then none else some s
    | none => none)

/-- The extend-then-list(set(...)) pattern applied to every free-text
field; nothing happens when the incoming list is empty. -/
def mergeTextField (existing incoming : List String) : List String :=
  match incoming with
  | [] => existing
  | _ :: _ => pySetList (existing ++ incoming)

/-- One iteration of the FVO loop of get_feature_data (the mutations on
fv_data collapse to: read the record of the resolved value label, update
every block, write it back).  A missing tei:name child or a name without a
ref attribute raises AttributeError, exactly where the Python code calls a
method on None. -/
def processFvo (doc : Doc) (bibl : BiblData) (pers : PersData) (vt : VarietyTitle)
    (fvDict : FvDict) (warns : List String) (v : FVO) :
    Except String (FvDict × List String) :=
  match v.nameEl with
  | none => Except.error "AttributeError"
  | some nameTag =>
    let fvNameE : Except String (Option String) :=
      if nameTag.ref = some "" then Except.ok (some "Missing")
      else
        match nameTag.ref with
        | none => Except.error "AttributeError"
        | some r =>
          let r2 := pyLstrip '#' r
          match (doc.items.filter (fun it => decide (it.xmlId = some r2))).flatMap
              (fun it => it.labels) with
          | l :: _ => Except.ok l
          | [] => Except.ok (some "Missing")
    match fvNameE with
    | Except.error e => Except.error e
    | Except.ok fvName =>
      let rec0 := dictGetD fvDict fvName emptyFvRec
      let sw := processSourceRefs bibl v.bibls (rec0.sources, warns)
      let vw := resolveVariety vt rec0.variety sw.2 v.langs
      let pw := v.persGrps.foldl (resolvePersGrp pers) (rec0.roles, vw.2)
      let sr : FvRec :=
        { sources := sw.1
          variety := vw.1
          roles := pw.1
          source_representations :=
            mergeTextField rec0.source_representations (validTexts v.srcReps)
          examples := mergeTextField rec0.examples (validTexts v.examples)
          translations := mergeTextField rec0.translations (validTexts v.translations)
          remarks := mergeTextField rec0.remarks (validTexts v.notesGeneral)
          constraints := mergeTextField rec0.constraints (validTexts v.notesConstraint)
          exceptions := mergeTextField rec0.exceptions (validTexts v.notesException) }
      Except.ok (dictSet fvDict fvName sr, pw.2)

/-- The FVO loop: after each observation the global counter of the hosting
feature id goes up by one (there is no filtering beyond the place match of
the XPath — in particular no status filter). -/
def processFvos (doc : Doc) (bibl : BiblData) (pers : PersData) (vt : VarietyTitle)
    (ftId : Option String) :
    List FVO → FvDict → Counts → List String →
    Except String (FvDict × Counts × List String)
  | [], fvDict, counts, warns => Except.ok (fvDict, counts, warns)
  | v :: vs, fvDict, counts, warns =>
    match processFvo doc bibl pers vt fvDict warns v with
    | Except.error e => Except.error e
    | Except.ok (fvDict2, warns2) =>
      processFvos doc bibl pers vt ftId vs fvDict2
        (dictSet counts ftId (dictGetD counts ftId 0 + 1)) warns2

/-- The document loop for one place: documents that mention the place get
their matching FVOs aggregated; a repeated feature id warns and the later
entry overwrites; the (possibly empty) value dict is attached
unconditionally. -/
def processDocsForPlace (bibl : BiblData) (pers : PersData) (vt : VarietyTitle) (pid : String) :
    List Doc → List (Option String × FvDict) → Counts → List String →
    Except String (List (Option String × FvDict) × Counts × List String)
  | [], df, counts, warns => Except.ok (df, counts, warns)
  | d :: ds, df, counts, warns =>
    if d.mentionsPlace pid then
      let warns2 := if (dictGet? df d.ftId).isSome then warns ++ ["duplicate feature id"] else warns
      match processFvos d bibl pers vt d.ftId (d.fvos.filter (fun v => v.matchesPlace pid))
          [] counts warns2 with
      | Except.error e => Except.error e
      | Except.ok (fvDict, counts2, warns3) =>
        processDocsForPlace bibl pers vt pid ds (dictSet df d.ftId fvDict) counts2 warns3
    else processDocsForPlace bibl pers vt pid ds df counts warns

/-- The place loop of get_feature_data, threading the feature counters and
warnings through every place in list order. -/
def get_feature_data_aux (docs : List Doc) (bibl : BiblData) (pers : PersData)
    (vt : VarietyTitle) :
    List GeoFeature → Counts → List String →
    Except String (List GeoFeature × Counts × List String)
  | [], counts, warns => Except.ok ([], counts, warns)
  | f :: fs, counts, warns =>
    match processDocsForPlace bibl pers vt f.id docs [] counts warns with
    | Except.error e => Except.error e
    | Except.ok (df, counts2, warns2) =>
      match get_feature_data_aux docs bibl pers vt fs counts2 warns2 with
      | Except.error e => Except.error e
      | Except.ok (fs2, counts3, warns3) =>
        Except.ok ({ f with docFeatures := f.docFeatures ++ df } :: fs2, counts3, warns3)

def get_feature_data (geoFeatures : List GeoFeature) (docs : List Doc) (bibl : BiblData)
    (pers : PersData) (vt : VarietyTitle) :
    Except String (List GeoFeature × Counts × List String) :=
  get_feature_data_aux docs bibl pers vt geoFeatures [] []

/-! ## column_headings and the pipeline of main -/

/-- One column entry: the title lookup always succeeds (its keys come from
the same dict), the count subscription f_names_count[key] raises KeyError
for a feature that contributed no observation, then the category lookup. -/
def mkHeading (names cats : List (Option String × String)) (counts : Counts)
    (k : Option String) : Except String Heading :=
  match pyDictGet names k with
  | Except.error e => Except.error e
  | Except.ok title =>
    match pyDictGet counts k with
    | Except.error e => Except.error e
    | Except.ok c =>
      match pyDictGet cats k with
      | Except.error e => Except.error e
      | Except.ok cat => Except.ok (Heading.featureH k title c cat)

/-- sorted(ft_name_dict, key=count, reverse=True) is a stable descending
sort of the dict keys in insertion order, followed by the fixed first
entry and one entry per feature. -/
def column_headings (names cats : List (Option String × String)) (counts : Counts) :
    Except String (List Heading) :=
  let sortedKeys :=
    sortStable (fun a b => decide (dictGetD counts b 0 ≤ dictGetD counts a 0))
      (names.map (fun p => p.1))
  match mapExcept (mkHeading names cats counts) sortedKeys with
  | Except.error e => Except.error e
  | Except.ok hs => Except.ok (Heading.nameH :: hs)

/-- The pipeline of main after document loading and reference-table
construction: first pass, geometry resolution, aggregation, column
assembly, final document.  json.dump(...) with sort_keys=True serialises
dict keys sorted but keeps every list in order, so two GeoJson values of
this model differ exactly when the written files differ. -/
def pipeline (docs : List Doc) (geo : GeoDoc) (bibl : BiblData) (pers : PersData)
    (vt : VarietyTitle) : Except String GeoJson :=
  match first_pass_features docs with
  | Except.error e => Except.error e
  | Except.ok fp =>
    match get_geo_info fp.mentionedPlaces geo with
    | Except.error e => Except.error e
    | Except.ok gf =>
      match get_feature_data_aux docs bibl pers vt gf [] [] with
      | Except.error e => Except.error e
      | Except.ok (enriched, counts, _) =>
        match column_headings fp.ftNameDict fp.parentCategories counts with
        | Except.error e => Except.error e
        | Except.ok cols => Except.ok ⟨cols, enriched⟩

/-! ## Derived definitions used by the claim analyses -/

/-- Replace the completion status of an observation (the script never
reads this field). -/
def FVO.withStatus (v : FVO) (s : Option String) : FVO := { v with status := s }

/-- Replace every observation status of a document pointwise. -/
def Doc.mapFvoStatus (g : FVO → Option String) (d : Doc) : Doc :=
  { d with fvos := d.fvos.map (fun v => v.withStatus (g v)) }

/-- The (key, record) pair that one source reference writes into the
sources dict, if any: the zot: branch writes the bibliography record when
the id resolves, the src: branch always writes the placeholder, every
other shape writes nothing. -/
def sourceWrite (bibl : BiblData) (ref : Option String) : Option (String × SourceRec) :=
  match ref with
  | none => none
  | some r =>
    if r = "" then none
    else if pyStartsWith r "zot:" then
      let biblId := pyReplace r "zot:" ""
      if biblId = "" then none
      else
        match dictGet? bibl biblId with
        | some sr => some (biblId, sr)
        | none => none
    else if pyStartsWith r "src:" then
      let biblId := pyReplace r "src:" ""
      some (biblId, mkSrcPlaceholder biblId)
    else none

/-- The record written last for a given source id by a reference sequence,
starting from a previous binding: the specification of last-write-wins. -/
def lastWriteAcc (bibl : BiblData) (refs : List (Option String)) (init : Option SourceRec)
    (id : String) : Option SourceRec :=
  refs.foldl (fun acc ref =>
    match sourceWrite bibl ref with
    | some kv => if kv.1 = id then some kv.2 else acc
    | none => acc) init

/-- Observation count carried by a column heading (0 for the fixed first
name entry, which never occurs in the sorted tail). -/
def Heading.countOf : Heading → Nat
  | Heading.nameH => 0
  | Heading.featureH _ _ c _ => c

/-- Feature key of a column heading (junk value none for the fixed name
entry, which never occurs in the sorted tail). -/
def Heading.keyOf : Heading → Option String
  | Heading.nameH => none
  | Heading.featureH k _ _ _ => k

/-- All six free-text fields of a value-label record are duplicate
free. -/
def FvRec.textsNodup (r : FvRec) : Prop :=
  r.source_representations.Nodup ∧ r.examples.Nodup ∧ r.translations.Nodup ∧
  r.remarks.Nodup ∧ r.constraints.Nodup ∧ r.exceptions.Nodup

/-! ## Concrete corpora used by the claim analyses

Each claim gets its own small corpus.  A geo document with one place p1 at
latitude 1.5 / longitude 2.5, feature documents with one observation per
construction needed. -/

def obsFvo : FVO := { nameEl := some ⟨some ""⟩, placeRefs := [some "geo:p1"], status := some "done" }

def c1docA : Doc :=
  { ftId := some "ftA", titleText := some "A", catRefTarget := some "dmp:c", fvos := [obsFvo] }

def c1docB : Doc :=
  { ftId := some "ftB", titleText := some "B", catRefTarget := some "dmp:c", fvos := [obsFvo, obsFvo] }

def c1docC : Doc :=
  { ftId := some "ftC", titleText := some "C", catRefTarget := some "dmp:c", fvos := [obsFvo] }

def c1geo : GeoDoc := ⟨[⟨some "p1", [⟨some "1.5, 2.5"⟩], ["P1"]⟩]⟩

def c2doc : Doc :=
  { ftId := some "ftA", titleText := some "A", catRefTarget := some "dmp:c",
    extraPlaceRefs := [some "geo:p1"] }

def c2docNoColon : Doc :=
  { ftId := some "ftA", titleText := some "A", catRefTarget := some "dmp:c",
    extraPlaceRefs := [some "noColonPlace"] }

def c2docNoRef : Doc :=
  { ftId := some "ftA", titleText := some "A", catRefTarget := some "dmp:c",
    fvos := [{ nameEl := some ⟨none⟩, placeRefs := [some "geo:p1"] }] }

def c2geo : GeoDoc := ⟨[⟨some "p1", [⟨some "1.5, 2.5"⟩], ["P1"]⟩]⟩

def c3fvo : FVO := { nameEl := some ⟨some ""⟩, placeRefs := [some "geo:p1"], status := some "draft" }

def c3doc : Doc :=
  { ftId := some "ftA", titleText := some "A", catRefTarget := some "dmp:c", fvos := [c3fvo] }

def c3geo : GeoDoc := ⟨[⟨some "p1", [⟨some "1.5, 2.5"⟩], ["P1"]⟩]⟩

def c4fvo1 : FVO :=
  { nameEl := some ⟨some ""⟩, placeRefs := [some "geo:p1"], bibls := [some "src:A"],
    examples := [some "x"] }

def c4fvo2 : FVO :=
  { nameEl := some ⟨some ""⟩, placeRefs := [some "geo:p1"], bibls := [some "src:B"],
    examples := [some "x"] }

def c4doc : Doc :=
  { ftId := some "ftA", titleText := some "A", catRefTarget := some "dmp:c",
    fvos := [c4fvo1, c4fvo2] }

def c4geo : GeoDoc := ⟨[⟨some "p1", [⟨some "1.5, 2.5"⟩], ["P1"]⟩]⟩

def c5geoNoLocation : GeoDoc := ⟨[⟨some "p1", [], ["P1"]⟩]⟩

def c5geoNoGeoChild : GeoDoc := ⟨[⟨some "p2", [⟨none⟩], ["P2"]⟩]⟩

def c6names1 : List (Option String × String) := [(some "A", "A"), (some "B", "B"), (some "C", "C")]

def c6names2 : List (Option String × String) := [(some "C", "C"), (some "B", "B"), (some "A", "A")]

def c6cats : List (Option String × String) := [(some "A", "c"), (some "B", "c"), (some "C", "c")]

def c6counts : Counts := [(some "A", 3), (some "B", 7), (some "C", 3)]

def c7rec : SourceRec := ⟨some "Short Cit", some "http", [("1990s", "low")]⟩

def c8fvo : FVO :=
  { nameEl := some ⟨some ""⟩, placeRefs := [some "geo:p1"],
    bibls := [some "src:A", some "src:B"] }

def c8doc : Doc := { ftId := some "ftA" }

/-! ## General lemmas about the primitive models -/

theorem listHas_iff {α : Type} [DecidableEq α] (l : List α) (x : α) :
    listHas l x = true ↔ x ∈ l := by
  induction l with
  | nil => simp [listHas]
  | cons y ys ih =>
    rw [listHas]
    by_cases h : y = x
    · subst h; simp
    · rw [if_neg h, ih, List.mem_cons]
      constructor
      · exact Or.inr
      · intro hor
        rcases hor with h2 | h2
        · exact absurd h2.symm h
        · exact h2

theorem dictGet?_dictSet {κ ν : Type} [DecidableEq κ] (m : List (κ × ν)) (k id : κ) (v : ν) :
    dictGet? (dictSet m k v) id = if k = id then some v else dictGet? m id := by
  induction m with
  | nil =>
    rw [dictSet, dictGet?, dictGet?]
    rfl
  | cons p ps ih =>
    rw [dictSet]
    by_cases hpk : p.1 = k
    · rw [if_pos hpk, dictGet?, dictGet?]
      by_cases hk : k = id
      · rw [if_pos hk, if_pos hk]
      · have hpid : ¬ p.1 = id := by rw [hpk]; exact hk
        rw [if_neg hk, if_neg hk, if_neg hpid]
    · rw [if_neg hpk, dictGet?, dictGet?]
      by_cases hpid : p.1 = id
      · by_cases hk : k = id
        · exact absurd (hpid.trans hk.symm) hpk
        · rw [if_pos hpid, if_neg hk, if_pos hpid]
      · rw [if_neg hpid, if_neg hpid, ih]

theorem mem_keys_dictSet {κ ν : Type} [DecidableEq κ] (m : List (κ × ν)) (k a : κ) (v : ν)
    (h : a ∈ (dictSet m k v).map Prod.fst) : a = k ∨ a ∈ m.map Prod.fst := by
  induction m with
  | nil =>
    rw [dictSet] at h
    rcases List.mem_cons.mp h with h2 | h2
    · exact Or.inl h2
    · cases h2
  | cons p ps ih =>
    rw [dictSet] at h
    by_cases hpk : p.1 = k
    · rw [if_pos hpk, List.map_cons] at h
      rcases List.mem_cons.mp h with h2 | h2
      · exact Or.inl h2
      · exact Or.inr (by rw [List.map_cons]; exact List.mem_cons_of_mem _ h2)
    · rw [if_neg hpk, List.map_cons] at h
      rcases List.mem_cons.mp h with h2 | h2
      · exact Or.inr (by rw [List.map_cons, h2]; exact List.mem_cons_self _ _)
      · rcases ih h2 with h3 | h3
        · exact Or.inl h3
        · exact Or.inr (by rw [List.map_cons]; exact List.mem_cons_of_mem _ h3)

theorem nodup_keys_dictSet {κ ν : Type} [DecidableEq κ] (m : List (κ × ν)) (k : κ) (v : ν)
    (h : (m.map Prod.fst).Nodup) : ((dictSet m k v).map Prod.fst).Nodup := by
  induction m with
  | nil => simp [dictSet]
  | cons p ps ih =>
    rw [List.map_cons, List.nodup_cons] at h
    rw [dictSet]
    by_cases hpk : p.1 = k
    · rw [if_pos hpk, List.map_cons, List.nodup_cons]
      exact ⟨by rw [← hpk]; exact h.1, h.2⟩
    · rw [if_neg hpk, List.map_cons, List.nodup_cons]
      refine ⟨?_, ih h.2⟩
      intro hmem
      rcases mem_keys_dictSet ps k p.1 v hmem with h2 | h2
      · exact hpk h2
      · exact h.1 h2

theorem mem_dictSet {κ ν : Type} [DecidableEq κ] (m : List (κ × ν)) (k : κ) (v : ν)
    (pr : κ × ν) (h : pr ∈ dictSet m k v) : pr = (k, v) ∨ pr ∈ m := by
  induction m with
  | nil =>
    rw [dictSet] at h
    rcases List.mem_cons.mp h with h2 | h2
    · exact Or.inl h2
    · cases h2
  | cons p ps ih =>
    rw [dictSet] at h
    by_cases hpk : p.1 = k
    · rw [if_pos hpk] at h
      rcases List.mem_cons.mp h with h2 | h2
      · exact Or.inl h2
      · exact Or.inr (List.mem_cons_of_mem _ h2)
    · rw [if_neg hpk] at h
      rcases List.mem_cons.mp h with h2 | h2
      · exact Or.inr (by rw [h2]; exact List.mem_cons_self _ _)
      · rcases ih h2 with h3 | h3
        · exact Or.inl h3
        · exact Or.inr (List.mem_cons_of_mem _ h3)

theorem nodup_pySetList_aux (xs acc : List String) (h : acc.Nodup) :
    (List.foldl (fun acc x => if listHas acc x then acc else acc ++ [x]) acc xs).Nodup := by
  induction xs generalizing acc with
  | nil => simpa using h
  | cons x xs ih =>
    rw [List.foldl_cons]
    by_cases hx : listHas acc x = true
    · rw [if_pos hx]; exact ih acc h
    · rw [if_neg hx]
      refine ih _ ?_
      have hxm : x ∉ acc := fun hm => hx ((listHas_iff acc x).mpr hm)
      simp [List.nodup_append, h, hxm]

theorem nodup_pySetList (l : List String) : (pySetList l).Nodup :=
  nodup_pySetList_aux l [] List.nodup_nil

theorem insertLe_perm {α : Type} (le : α → α → Bool) (x : α) (l : List α) :
    (insertLe le x l).Perm (x :: l) := by
  induction l with
  | nil => simp [insertLe]
  | cons y ys ih =>
    by_cases h : le x y = true
    · rw [insertLe, if_pos h]
    · rw [insertLe, if_neg h]
      exact (ih.cons y).trans (List.Perm.swap x y ys)

theorem sortStable_perm {α : Type} (le : α → α → Bool) (l : List α) :
    (sortStable le l).Perm l := by
  induction l with
  | nil => simp [sortStable]
  | cons x xs ih => exact (insertLe_perm le x (sortStable le xs)).trans (ih.cons x)

theorem pairwise_insertLe {α : Type} (le : α → α → Bool)
    (htrans : ∀ a b c, le a b = true → le b c = true → le a c = true)
    (htot : ∀ a b, le a b = true ∨ le b a = true)
    (x : α) (l : List α) (h : l.Pairwise (fun a b => le a b = true)) :
    (insertLe le x l).Pairwise (fun a b => le a b = true) := by
  induction l with
  | nil => simp [insertLe]
  | cons y ys ih =>
    cases h with
    | cons hy hys =>
      by_cases hxy : le x y = true
      · rw [insertLe, if_pos hxy]
        refine List.Pairwise.cons ?_ (List.Pairwise.cons hy hys)
        intro z hz
        rcases List.mem_cons.mp hz with rfl | hz2
        · exact hxy
        · exact htrans x y z hxy (hy z hz2)
      · rw [insertLe, if_neg hxy]
        refine List.Pairwise.cons ?_ (ih hys)
        intro z hz
        have hz3 := (insertLe_perm le x ys).mem_iff.mp hz
        rcases List.mem_cons.mp hz3 with heq | hz4
        · rw [heq]
          cases htot x y with
          | inl h1 => exact absurd h1 hxy
          | inr h1 => exact h1
        · exact hy z hz4

theorem pairwise_sortStable {α : Type} (le : α → α → Bool)
    (htrans : ∀ a b c, le a b = true → le b c = true → le a c = true)
    (htot : ∀ a b, le a b = true ∨ le b a = true)
    (l : List α) : (sortStable le l).Pairwise (fun a b => le a b = true) := by
  induction l with
  | nil => simp [sortStable]
  | cons x xs ih => exact pairwise_insertLe le htrans htot x _ ih

theorem mapExcept_ok_forall2 {α β : Type} (f : α → Except String β) (l : List α) (ys : List β)
    (h : mapExcept f l = Except.ok ys) :
    List.Forall₂ (fun x y => f x = Except.ok y) l ys := by
  induction l generalizing ys with
  | nil =>
    rw [mapExcept] at h
    cases h
    exact List.Forall₂.nil
  | cons a as ih =>
    rw [mapExcept] at h
    cases hfa : f a with
    | error e => rw [hfa] at h; cases h
    | ok b =>
      rw [hfa] at h
      cases hrest : mapExcept f as with
      | error e => rw [hrest] at h; cases h
      | ok bs =>
        rw [hrest] at h
        cases h
        exact List.Forall₂.cons hfa (ih bs hrest)

theorem forall2_mem_left {α β : Type} {R : α → β → Prop} {l : List α} {ys : List β}
    (h : List.Forall₂ R l ys) (x : α) (hx : x ∈ l) : ∃ y ∈ ys, R x y := by
  induction h with
  | nil => cases hx
  | cons hr _ ih =>
    rcases List.mem_cons.mp hx with rfl | hx2
    · exact ⟨_, List.mem_cons_self _ _, hr⟩
    · rcases ih hx2 with ⟨y, hy, hry⟩
      exact ⟨y, List.mem_cons_of_mem _ hy, hry⟩

theorem forall2_mem_right {α β : Type} {R : α → β → Prop} {l : List α} {ys : List β}
    (h : List.Forall₂ R l ys) (y : β) (hy : y ∈ ys) : ∃ x ∈ l, R x y := by
  induction h with
  | nil => cases hy
  | cons hr _ ih =>
    rcases List.mem_cons.mp hy with rfl | hy2
    · exact ⟨_, List.mem_cons_self _ _, hr⟩
    · rcases ih hy2 with ⟨x, hx, hrx⟩
      exact ⟨x, List.mem_cons_of_mem _ hx, hrx⟩

theorem pairwise_of_forall2 {α β : Type} {R : α → β → Prop} {P : α → α → Prop}
    {Q : β → β → Prop} {l : List α} {ys : List β} (h : List.Forall₂ R l ys)
    (hp : l.Pairwise P) (himp : ∀ a b x y, R a x → R b y → P a b → Q x y) :
    ys.Pairwise Q := by
  induction h with
  | nil => exact List.Pairwise.nil
  | cons hr hrest ih =>
    cases hp with
    | cons ha hp2 =>
      refine List.Pairwise.cons ?_ (ih hp2)
      intro z hz
      rcases forall2_mem_right hrest z hz with ⟨b, hb, hrb⟩
      exact himp _ _ _ _ hr hrb (ha b hb)

theorem forall2_map_eq {α β γ : Type} {R : α → β → Prop} {l : List α} {ys : List β}
    (h : List.Forall₂ R l ys) (f : α → γ) (g : β → γ)
    (hfg : ∀ a b, R a b → g b = f a) : ys.map g = l.map f := by
  induction h with
  | nil => rfl
  | cons hr _ ih => simp [hfg _ _ hr, ih]

/-! ## Claim theorems -/

/-- C1: the claim states that the pipeline output is identical regardless
of the iteration order of the document collection.  The code evaluating
theorem below exhibits two iteration orders of the same three-document
corpus (features A and C tie with one observation each, B has two) whose
final outputs differ: the stable descending sort of the column headings
breaks the A/C tie by ft_name_dict insertion order, which is the corpus
iteration order.  Lists survive json.dump(..., sort_keys=True) in order,
so the two written files differ byte-wise. -/
theorem c1_pipeline_output_depends_on_corpus_iteration_order :
    ([c1docC, c1docB, c1docA] : List Doc).Perm [c1docA, c1docB, c1docC] ∧
    (pipeline [c1docA, c1docB, c1docC] c1geo [] [] []).toOption.isSome = true ∧
    (pipeline [c1docC, c1docB, c1docA] c1geo [] [] []).toOption.isSome = true ∧
    (pipeline [c1docA, c1docB, c1docC] c1geo [] [] []).toOption ≠
      (pipeline [c1docC, c1docB, c1docA] c1geo [] [] []).toOption := by
  refine ⟨by decide, by decide, by decide, by decide⟩

/-- C2: the claim states that no exception is raised once the corpus has
loaded.  The pipeline raises on each of the three document shapes the
claim itself lists: a feature document that mentions a place but
contributes zero observations (KeyError from f_names_count[key] in main),
a place reference without a namespace separator (IndexError from
place_id.split(":")[1]), and a value name element without a ref attribute
(AttributeError from fv_ref.lstrip on None). -/
theorem c2_pipeline_raises_after_successful_load :
    pipeline [c2doc] c2geo [] [] [] = Except.error "KeyError" ∧
    pipeline [c2docNoColon] c2geo [] [] [] = Except.error "IndexError" ∧
    pipeline [c2docNoRef] c2geo [] [] [] = Except.error "AttributeError" :=
  ⟨rfl, rfl, rfl⟩

/-- C3 counterexample: an observation whose status is "draft" (not
"done") still adds its entry under its value label and still increments
the observation count of its feature to 1 — the code never reads the
status, so the claimed status filter does not exist. -/
theorem c3_counterexample_draft_observation_contributes :
    pipeline [c3doc] c3geo [] [] [] =
      Except.ok ⟨[Heading.nameH, Heading.featureH (some "ftA") "A" 1 "c"],
        [⟨"geo:p1", [⟨25, 1⟩, ⟨15, 1⟩], "P1", [(some "ftA", [(some "Missing", emptyFvRec)])]⟩]⟩ :=
  rfl

/-- C4 counterexample: two observations with the same place, feature and
value label, each carrying its own source (src:A and src:B) and the same
example text "x", end up MERGED into a single record for the label: the
sources are pooled into one id-keyed dict and the example list is
deduplicated to ["x"] by list(set(...)) — not two separate entries and
not an append without set-deduplication as the claim states. -/
theorem c4_counterexample_same_label_fvos_merged_and_deduped :
    pipeline [c4doc] c4geo [] [] [] =
      Except.ok ⟨[Heading.nameH, Heading.featureH (some "ftA") "A" 2 "c"],
        [⟨"geo:p1", [⟨25, 1⟩, ⟨15, 1⟩], "P1",
          [(some "ftA",
            [(some "Missing",
              { emptyFvRec with
                  sources := [("A", mkSrcPlaceholder "A"), ("B", mkSrcPlaceholder "B")],
                  examples := ["x"] })])]⟩]⟩ :=
  rfl

/-- C5 counterexample: the place geo:p1 is in the discovered place set and
its geographic record exists but has no location child; the claim says the
output still contains a feature for it with empty coordinates, yet
get_geo_info drops the place entirely — the output feature list is
empty. -/
theorem c5_counterexample_place_without_location_dropped :
    get_geo_info ["geo:p1"] c5geoNoLocation = Except.ok [] :=
  rfl

/-- C6 counterexample: with counts A=3, B=7, C=3, permuting the corpus
insertion order of ft_name_dict permutes the A/C tie in the column list,
and the concrete output orders C before A (corpus order, not the feature
identifier order the claim requires) — the tie-break is corpus iteration
order. -/
theorem c6_counterexample_tie_order_is_corpus_order :
    (column_headings c6names1 c6cats c6counts).toOption ≠
      (column_headings c6names2 c6cats c6counts).toOption ∧
    column_headings c6names2 c6cats c6counts =
      Except.ok [Heading.nameH, Heading.featureH (some "B") "B" 7 "c",
        Heading.featureH (some "C") "C" 3 "c", Heading.featureH (some "A") "A" 3 "c"] :=
  ⟨by decide, rfl⟩

/-- C8 counterexample: an observation with two bibliographic references
src:A and src:B gets BOTH resolved into its sources dict and no warning is
emitted — the claim says a warning is emitted and only the first
reference is used. -/
theorem c8_counterexample_second_reference_also_used :
    processFvo c8doc [] [] [] [] [] c8fvo =
      Except.ok ([(some "Missing",
        { emptyFvRec with sources := [("A", mkSrcPlaceholder "A"), ("B", mkSrcPlaceholder "B")] })],
        []) :=
  rfl

theorem placeRefs_withStatus (v : FVO) (s : Option String) :
    (v.withStatus s).placeRefs = v.placeRefs := by
  cases v; rfl

theorem matchesPlace_withStatus (v : FVO) (s : Option String) (pid : String) :
    (v.withStatus s).matchesPlace pid = v.matchesPlace pid := by
  cases v; rfl

theorem processFvo_mapFvoStatus (d : Doc) (g : FVO → Option String) (b : BiblData)
    (p : PersData) (t : VarietyTitle) (dict : FvDict) (w : List String) (v : FVO)
    (s : Option String) :
    processFvo (d.mapFvoStatus g) b p t dict w (v.withStatus s) =
      processFvo d b p t dict w v := by
  cases d; cases v; rfl

theorem flatMap_placeRefs_mapStatus (g : FVO → Option String) (fv : List FVO) :
    (fv.map (fun v => v.withStatus (g v))).flatMap (fun v => v.placeRefs) =
      fv.flatMap (fun v => v.placeRefs) := by
  induction fv with
  | nil => rfl
  | cons a as ih => simp only [List.map_cons, List.flatMap_cons, placeRefs_withStatus, ih]

theorem mentionsPlace_mapFvoStatus (d : Doc) (g : FVO → Option String) (pid : String) :
    (d.mapFvoStatus g).mentionsPlace pid = d.mentionsPlace pid := by
  rw [Doc.mentionsPlace, Doc.mentionsPlace]
  rw [show (d.mapFvoStatus g).fvos = d.fvos.map (fun v => v.withStatus (g v)) from rfl]
  rw [show (d.mapFvoStatus g).extraPlaceRefs = d.extraPlaceRefs from rfl]
  rw [flatMap_placeRefs_mapStatus]

theorem filter_matches_mapStatus (g : FVO → Option String) (pid : String) (fv : List FVO) :
    (fv.map (fun v => v.withStatus (g v))).filter (fun v => v.matchesPlace pid) =
      (fv.filter (fun v => v.matchesPlace pid)).map (fun v => v.withStatus (g v)) := by
  induction fv with
  | nil => rfl
  | cons a as ih =>
    simp only [List.map_cons, List.filter_cons, matchesPlace_withStatus]
    by_cases hm : a.matchesPlace pid = true
    · rw [if_pos hm, if_pos hm, List.map_cons, ih]
    · rw [if_neg hm, if_neg hm, ih]

theorem processFvos_mapStatus (d : Doc) (g : FVO → Option String) (b : BiblData)
    (p : PersData) (t : VarietyTitle) (ftId : Option String) (vs : List FVO) :
    ∀ dict counts warns,
      processFvos (d.mapFvoStatus g) b p t ftId (vs.map (fun v => v.withStatus (g v)))
          dict counts warns =
        processFvos d b p t ftId vs dict counts warns := by
  induction vs with
  | nil => intro dict counts warns; rfl
  | cons v vs ih =>
    intro dict counts warns
    simp only [List.map_cons, processFvos]
    rw [processFvo_mapFvoStatus d g b p t dict warns v (g v)]
    cases hp : processFvo d b p t dict warns v with
    | error e => rfl
    | ok pr =>
      obtain ⟨d2, w2⟩ := pr
      exact ih d2 _ w2

theorem processDocsForPlace_mapStatus (b : BiblData) (p : PersData) (t : VarietyTitle)
    (pid : String) (g : FVO → Option String) (ds : List Doc) :
    ∀ df counts warns,
      processDocsForPlace b p t pid (ds.map (Doc.mapFvoStatus g)) df counts warns =
        processDocsForPlace b p t pid ds df counts warns := by
  induction ds with
  | nil => intro df counts warns; rfl
  | cons d ds ih =>
    intro df counts warns
    simp only [List.map_cons, processDocsForPlace, mentionsPlace_mapFvoStatus]
    by_cases hm : d.mentionsPlace pid = true
    · rw [if_pos hm, if_pos hm]
      rw [show (d.mapFvoStatus g).ftId = d.ftId from rfl]
      rw [show (d.mapFvoStatus g).fvos = d.fvos.map (fun v => v.withStatus (g v)) from rfl]
      rw [filter_matches_mapStatus]
      rw [processFvos_mapStatus]
      cases hp : processFvos d b p t d.ftId (d.fvos.filter (fun v => v.matchesPlace pid)) []
          counts (if (dictGet? df d.ftId).isSome then warns ++ ["duplicate feature id"]
            else warns) with
      | error e => rfl
      | ok pr =>
        obtain ⟨fvd, c2, w3⟩ := pr
        exact ih (dictSet df d.ftId fvd) c2 w3
    · rw [if_neg hm, if_neg hm]
      exact ih df counts warns

/-- C3 (amended): the aggregation never reads the completion status —
replacing every observation's status by an arbitrary function of the
observation leaves the whole per-place aggregation, the observation
counters and the warnings unchanged, so every matching FVO contributes
whatever its status (the claimed status filter does not exist). -/
theorem c3_status_never_read (g : FVO → Option String) (docs : List Doc) (b : BiblData)
    (p : PersData) (t : VarietyTitle) (gf : List GeoFeature) :
    ∀ counts warns,
      get_feature_data_aux (docs.map (Doc.mapFvoStatus g)) b p t gf counts warns =
        get_feature_data_aux docs b p t gf counts warns := by
  induction gf with
  | nil => intro counts warns; rfl
  | cons f fs ih =>
    intro counts warns
    simp only [get_feature_data_aux]
    rw [processDocsForPlace_mapStatus]
    cases hp : processDocsForPlace b p t f.id docs [] counts warns with
    | error e => rfl
    | ok pr =>
      obtain ⟨df, c2, w2⟩ := pr
      simp only [ih]

/-- C9: the geodetic text "34.5, -6.2" is split on whitespace and commas,
each token converted to its float value, and the latitude-longitude source
order reversed, so the emitted coordinate array is [-6.2, 34.5] (the
exact decimal values -62/10 and 345/10). -/
theorem c9_coordinate_split_reverse :
    coordsOfGeoText "34.5, -6.2" = Except.ok [⟨-62, 1⟩, ⟨345, 1⟩] ∧
    PyFloat.toRat ⟨-62, 1⟩ = -6.2 ∧ PyFloat.toRat ⟨345, 1⟩ = 34.5 := by
  refine ⟨rfl, ?_, ?_⟩ <;> norm_num [PyFloat.toRat]

/-- C7: the source-reference prefix policy of get_feature_data.  A
zot:ABC reference resolves through the bibliography table, a missing id
adds no record and logs the missing-source warning; src:XYZ stores
exactly the literal placeholder record; any other nonempty prefix adds
nothing and logs the unknown-format warning. -/
theorem c7_source_reference_policy (bibl : BiblData) (m : List (String × SourceRec))
    (w : List String) :
    (∀ sr, dictGet? bibl "ABC" = some sr →
      resolveSourceRef bibl (m, w) (some "zot:ABC") = (dictSet m "ABC" sr, w)) ∧
    (dictGet? bibl "ABC" = none →
      resolveSourceRef bibl (m, w) (some "zot:ABC") =
        (m, w ++ ["Missing source data for ABC"])) ∧
    resolveSourceRef bibl (m, w) (some "src:XYZ") =
      (dictSet m "XYZ" ⟨some "XYZ", some "", [("2020s", "high")]⟩, w) ∧
    (∀ r, r ≠ "" → pyStartsWith r "zot:" = false → pyStartsWith r "src:" = false →
      resolveSourceRef bibl (m, w) (some r) =
        (m, w ++ ["Unknown source reference format: " ++ r])) := by
  have e : resolveSourceRef bibl (m, w) (some "zot:ABC") =
      (match dictGet? bibl "ABC" with
       | some sr2 => (dictSet m "ABC" sr2, w)
       | none => (m, w ++ ["Missing source data for ABC"])) := rfl
  refine ⟨?_, ?_, rfl, ?_⟩
  · intro sr h
    rw [e, h]
  · intro h
    rw [e, h]
  · intro r h0 h1 h2
    have n1 : ¬ pyStartsWith r "zot:" = true := by simp [h1]
    have n2 : ¬ pyStartsWith r "src:" = true := by simp [h2]
    simp only [resolveSourceRef]
    rw [if_neg h0, if_neg n1, if_neg n2]

/-- C7 witness: the policy instantiated at one-entry and empty
bibliography tables. -/
theorem c7_source_reference_policy_witness :
    resolveSourceRef [("ABC", c7rec)] ([], []) (some "zot:ABC") = ([("ABC", c7rec)], []) ∧
    resolveSourceRef [] ([], []) (some "zot:ABC") = ([], ["Missing source data for ABC"]) ∧
    resolveSourceRef [] ([], []) (some "src:XYZ") =
      ([("XYZ", ⟨some "XYZ", some "", [("2020s", "high")]⟩)], []) ∧
    resolveSourceRef [] ([], []) (some "other:Q") =
      ([], ["Unknown source reference format: other:Q"]) := by
  refine ⟨?_, ?_, ?_, ?_⟩
  · exact (c7_source_reference_policy [("ABC", c7rec)] [] []).1 c7rec rfl
  · exact (c7_source_reference_policy [] [] []).2.1 rfl
  · exact (c7_source_reference_policy [] [] []).2.2.1
  · exact (c7_source_reference_policy [] [] []).2.2.2 "other:Q" (by decide) (by decide)
      (by decide)

theorem resolveSourceRef_fst (bibl : BiblData) (m : List (String × SourceRec)) (w : List String)
    (ref : Option String) :
    (resolveSourceRef bibl (m, w) ref).1 =
      match sourceWrite bibl ref with
      | some kv => dictSet m kv.1 kv.2
      | none => m := by
  cases ref with
  | none => rfl
  | some r =>
    simp only [resolveSourceRef, sourceWrite]
    by_cases h0 : r = ""
    · rw [if_pos h0, if_pos h0]
    · rw [if_neg h0, if_neg h0]
      by_cases hz : pyStartsWith r "zot:" = true
      · rw [if_pos hz, if_pos hz]
        by_cases hb : pyReplace r "zot:" "" = ""
        · rw [if_pos hb, if_pos hb]
        · rw [if_neg hb, if_neg hb]
          cases hl : dictGet? bibl (pyReplace r "zot:" "") with
          | some sr => rfl
          | none => rfl
      · rw [if_neg hz, if_neg hz]
        by_cases hs : pyStartsWith r "src:" = true
        · rw [if_pos hs, if_pos hs]
        · rw [if_neg hs, if_neg hs]

theorem lastWriteAcc_cons (bibl : BiblData) (r : Option String) (rs : List (Option String))
    (init : Option SourceRec) (id : String) :
    lastWriteAcc bibl (r :: rs) init id =
      lastWriteAcc bibl rs
        (match sourceWrite bibl r with
         | some kv => if kv.1 = id then some kv.2 else init
         | none => init) id := rfl

theorem processSourceRefs_nodup_and_lookup (bibl : BiblData) (refs : List (Option String))
    (id : String) :
    ∀ m w, (m.map Prod.fst).Nodup →
      ((processSourceRefs bibl refs (m, w)).1.map Prod.fst).Nodup ∧
      dictGet? (processSourceRefs bibl refs (m, w)).1 id =
        lastWriteAcc bibl refs (dictGet? m id) id := by
  induction refs with
  | nil => intro m w h; exact ⟨h, rfl⟩
  | cons r rs ih =>
    intro m w h
    simp only [processSourceRefs]
    rcases hres : resolveSourceRef bibl (m, w) r with ⟨m2, w2⟩
    have hfst := resolveSourceRef_fst bibl m w r
    rw [hres] at hfst
    cases hw : sourceWrite bibl r with
    | none =>
      rw [hw] at hfst
      have hm2 : m2 = m := hfst
      rw [hm2, lastWriteAcc_cons, hw]
      exact ih m w2 h
    | some kv =>
      rw [hw] at hfst
      have hm2 : m2 = dictSet m kv.1 kv.2 := hfst
      subst hm2
      rw [lastWriteAcc_cons, hw]
      have hnd2 := nodup_keys_dictSet m kv.1 kv.2 h
      have hih := ih (dictSet m kv.1 kv.2) w2 hnd2
      refine ⟨hih.1, ?_⟩
      rw [hih.2, dictGet?_dictSet]

/-- C10: the resolved sources of a value-label record form a map keyed by
the source identifier: starting from a duplicate-free map, after any
sequence of references the key list stays duplicate free (at most one
record per identifier) and the record looked up for an identifier is the
one written last for it (lastWriteAcc), so a later write wins. -/
theorem c10_sources_keyed_by_id_last_write_wins (bibl : BiblData) (refs : List (Option String))
    (m : List (String × SourceRec)) (w : List String) (id : String)
    (hnd : (m.map Prod.fst).Nodup) :
    ((processSourceRefs bibl refs (m, w)).1.map Prod.fst).Nodup ∧
    dictGet? (processSourceRefs bibl refs (m, w)).1 id =
      lastWriteAcc bibl refs (dictGet? m id) id :=
  processSourceRefs_nodup_and_lookup bibl refs id m w hnd

/-- C10 witness: two references with the same identifier X leave a single
record whose value is the later write. -/
theorem c10_sources_keyed_by_id_last_write_wins_witness :
    ((processSourceRefs [] [some "src:X", some "zot:Q", some "src:X"] ([], [])).1.map
      Prod.fst).Nodup ∧
    dictGet? (processSourceRefs [] [some "src:X", some "zot:Q", some "src:X"] ([], [])).1 "X" =
      lastWriteAcc [] [some "src:X", some "zot:Q", some "src:X"]
        (dictGet? ([] : List (String × SourceRec)) "X") "X" :=
  c10_sources_keyed_by_id_last_write_wins [] [some "src:X", some "zot:Q", some "src:X"]
    [] [] "X" (by decide)

theorem src_starts_ne_empty (r : String) (h : pyStartsWith r "src:" = true) : r ≠ "" := by
  intro h0
  subst h0
  exact absurd h (by decide)

theorem startsWith_src_not_zot (r : String) (h : pyStartsWith r "src:" = true) :
    pyStartsWith r "zot:" = false := by
  rw [pyStartsWith] at h ⊢
  cases hr : r.toList with
  | nil =>
    rw [hr] at h
    exact absurd h (by decide)
  | cons c cs =>
    rw [hr] at h
    have h2 : (('s' == c) && List.isPrefixOf ['r', 'c', ':'] cs) = true := h
    rw [Bool.and_eq_true] at h2
    rcases h2 with ⟨h3, _⟩
    have hc : c = 's' := (beq_iff_eq.mp h3).symm
    subst hc
    have e : List.isPrefixOf "zot:".toList ('s' :: cs) =
        (('z' == 's') && List.isPrefixOf ['o', 't', ':'] cs) := rfl
    rw [e, show (('z' == 's') : Bool) = false by decide, Bool.false_and]

theorem dictGet?_isSome_resolveSourceRef (bibl : BiblData) (m : List (String × SourceRec))
    (w : List String) (ref : Option String) (id : String)
    (h : (dictGet? m id).isSome = true) :
    (dictGet? (resolveSourceRef bibl (m, w) ref).1 id).isSome = true := by
  rw [resolveSourceRef_fst]
  cases sourceWrite bibl ref with
  | none => exact h
  | some kv =>
    simp only [dictGet?_dictSet]
    by_cases hk : kv.1 = id
    · rw [if_pos hk]; rfl
    · rw [if_neg hk]; exact h

theorem processSourceRefs_isSome_mono (bibl : BiblData) (rs : List (Option String))
    (id : String) :
    ∀ m w, (dictGet? m id).isSome = true →
      (dictGet? (processSourceRefs bibl rs (m, w)).1 id).isSome = true := by
  induction rs with
  | nil => intro m w h; exact h
  | cons r rs ih =>
    intro m w h
    simp only [processSourceRefs]
    rcases hres : resolveSourceRef bibl (m, w) r with ⟨m2, w2⟩
    refine ih m2 w2 ?_
    have h2 := dictGet?_isSome_resolveSourceRef bibl m w r id h
    rw [hres] at h2
    exact h2

/-- C8 (amended): every bibliographic reference of an observation is
processed — in particular a src:-prefixed reference anywhere in the list,
first or not, leaves a record under its stripped identifier in the final
sources map, so later references contribute (and the counterexample shows
no warning is emitted for multiple references). -/
theorem c8_every_src_reference_contributes (bibl : BiblData) (refs : List (Option String))
    (m : List (String × SourceRec)) (w : List String) (r id : String)
    (hmem : some r ∈ refs) (hpre : pyStartsWith r "src:" = true)
    (hid : pyReplace r "src:" "" = id) :
    (dictGet? (processSourceRefs bibl refs (m, w)).1 id).isSome = true := by
  induction refs generalizing m w with
  | nil => cases hmem
  | cons q rs ih =>
    simp only [processSourceRefs]
    rcases hres : resolveSourceRef bibl (m, w) q with ⟨m2, w2⟩
    rcases List.mem_cons.mp hmem with hq | hq
    · have hqr : q = some r := hq.symm
      subst hqr
      have hfst := resolveSourceRef_fst bibl m w (some r)
      rw [hres] at hfst
      have hw : sourceWrite bibl (some r) = some (id, mkSrcPlaceholder id) := by
        simp only [sourceWrite]
        rw [if_neg (src_starts_ne_empty r hpre)]
        rw [if_neg (show ¬ pyStartsWith r "zot:" = true by
          simp [startsWith_src_not_zot r hpre])]
        rw [if_pos hpre, hid]
      rw [hw] at hfst
      have hm2 : m2 = dictSet m id (mkSrcPlaceholder id) := hfst
      refine processSourceRefs_isSome_mono bibl rs id m2 w2 ?_
      rw [hm2, dictGet?_dictSet, if_pos rfl]
      rfl
    · exact ih m2 w2 hq

/-- C8 witness: the second of two src: references is present in the final
sources map. -/
theorem c8_every_src_reference_contributes_witness :
    (dictGet? (processSourceRefs [] [some "src:A", some "src:B"] ([], [])).1 "B").isSome =
      true :=
  c8_every_src_reference_contributes [] [some "src:A", some "src:B"] [] [] "src:B" "B"
    (by decide) (by decide) (by decide)

theorem dictGet?_mem_of_some {κ ν : Type} [DecidableEq κ] (m : List (κ × ν)) (k : κ) (v : ν)
    (h : dictGet? m k = some v) : (k, v) ∈ m := by
  induction m with
  | nil => cases h
  | cons p ps ih =>
    rw [dictGet?] at h
    by_cases hk : p.1 = k
    · rw [if_pos hk] at h
      cases h
      have hp : (k, p.2) = p := by rw [← hk]
      rw [hp]
      exact List.mem_cons_self _ _
    · rw [if_neg hk] at h
      exact List.mem_cons_of_mem _ (ih h)

theorem nodup_mergeTextField (existing incoming : List String) (h : existing.Nodup) :
    (mergeTextField existing incoming).Nodup := by
  cases incoming with
  | nil => exact h
  | cons a as => exact nodup_pySetList _

theorem emptyFvRec_textsNodup : emptyFvRec.textsNodup :=
  ⟨List.nodup_nil, List.nodup_nil, List.nodup_nil, List.nodup_nil, List.nodup_nil,
    List.nodup_nil⟩

theorem processFvo_ok_nodup (doc : Doc) (bibl : BiblData) (pers : PersData) (vt : VarietyTitle)
    (dict : FvDict) (warns : List String) (v : FVO) (pr : FvDict × List String)
    (h : processFvo doc bibl pers vt dict warns v = Except.ok pr) :
    ∃ fvName sr, pr.1 = dictSet dict fvName sr ∧
      ((dictGetD dict fvName emptyFvRec).textsNodup → sr.textsNodup) := by
  simp only [processFvo] at h
  split at h
  · cases h
  · split at h
    · cases h
    · cases h
      refine ⟨_, _, rfl, ?_⟩
      intro hb
      rcases hb with ⟨b1, b2, b3, b4, b5, b6⟩
      exact ⟨nodup_mergeTextField _ _ b1, nodup_mergeTextField _ _ b2,
        nodup_mergeTextField _ _ b3, nodup_mergeTextField _ _ b4,
        nodup_mergeTextField _ _ b5, nodup_mergeTextField _ _ b6⟩

theorem processFvos_nodup_invariant (doc : Doc) (bibl : BiblData) (pers : PersData)
    (vt : VarietyTitle) (ftId : Option String) (vs : List FVO) :
    ∀ dict counts warns out,
      (dict.map Prod.fst).Nodup → (∀ pr ∈ dict, pr.2.textsNodup) →
      processFvos doc bibl pers vt ftId vs dict counts warns = Except.ok out →
      (out.1.map Prod.fst).Nodup ∧ ∀ pr ∈ out.1, pr.2.textsNodup := by
  induction vs with
  | nil =>
    intro dict counts warns out h1 h2 h
    cases h
    exact ⟨h1, h2⟩
  | cons v vs ih =>
    intro dict counts warns out h1 h2 h
    simp only [processFvos] at h
    cases hp : processFvo doc bibl pers vt dict warns v with
    | error e => rw [hp] at h; cases h
    | ok pr2 =>
      obtain ⟨d2, w2⟩ := pr2
      rw [hp] at h
      rcases processFvo_ok_nodup doc bibl pers vt dict warns v (d2, w2) hp with
        ⟨fvName, sr, he1, he2⟩
      have hd2 : d2 = dictSet dict fvName sr := he1
      have hn1 : (d2.map Prod.fst).Nodup := by
        rw [hd2]; exact nodup_keys_dictSet dict fvName sr h1
      have hn2 : ∀ pr ∈ d2, pr.2.textsNodup := by
        intro pr hm
        rw [hd2] at hm
        rcases mem_dictSet dict fvName sr pr hm with hcase | hcase
        · rw [hcase]
          refine he2 ?_
          cases hg : dictGet? dict fvName with
          | none =>
            rw [dictGetD, hg]
            exact emptyFvRec_textsNodup
          | some r0 =>
            rw [dictGetD, hg]
            exact h2 (fvName, r0) (dictGet?_mem_of_some dict fvName r0 hg)
        · exact h2 pr hcase
      exact ih d2 _ w2 out hn1 hn2 h

/-- C4 (amended): observations sharing the same place, feature and value
label are merged into a single record per value label — the value dict
built for a feature has duplicate-free keys — and every free-text field
of every record (source representations, examples, translations, remarks,
constraints, exceptions) is set-deduplicated, hence duplicate free. -/
theorem c4_value_labels_unique_and_texts_deduped (doc : Doc) (bibl : BiblData)
    (pers : PersData) (vt : VarietyTitle) (ftId : Option String) (vs : List FVO)
    (counts : Counts) (warns : List String) (out : FvDict × Counts × List String)
    (h : processFvos doc bibl pers vt ftId vs [] counts warns = Except.ok out) :
    (out.1.map Prod.fst).Nodup ∧ ∀ pr ∈ out.1, pr.2.textsNodup :=
  processFvos_nodup_invariant doc bibl pers vt ftId vs [] counts warns out
    List.nodup_nil (fun pr hm => absurd hm (List.not_mem_nil pr)) h

/-- C4 witness: the amended statement instantiated on the two-observation
corpus of the counterexample. -/
theorem c4_value_labels_unique_and_texts_deduped_witness :
    (([(some "Missing",
        { emptyFvRec with
            sources := [("A", mkSrcPlaceholder "A"), ("B", mkSrcPlaceholder "B")],
            examples := ["x"] })] : FvDict).map Prod.fst).Nodup ∧
    ∀ pr ∈ ([(some "Missing",
        { emptyFvRec with
            sources := [("A", mkSrcPlaceholder "A"), ("B", mkSrcPlaceholder "B")],
            examples := ["x"] })] : FvDict), pr.2.textsNodup :=
  c4_value_labels_unique_and_texts_deduped c4doc [] [] [] (some "ftA") [c4fvo1, c4fvo2]
    [] []
    ([(some "Missing",
        { emptyFvRec with
            sources := [("A", mkSrcPlaceholder "A"), ("B", mkSrcPlaceholder "B")],
            examples := ["x"] })], [(some "ftA", 2)], [])
    rfl

theorem geoFeatureFor_id (geo : GeoDoc) (q : String) (f : GeoFeature)
    (h : geoFeatureFor geo q = Except.ok (some f)) : f.id = q := by
  simp only [geoFeatureFor] at h
  split at h
  · cases h
  · split at h
    · exact Option.noConfusion (Except.ok.inj h)
    · split at h
      · cases h
      · rw [← Option.some.inj (Except.ok.inj h)]

theorem geoFeatureFor_no_location (geo : GeoDoc) (q gid : String)
    (hsplit : pyIndex (pySplitChar ':' q) 1 = Except.ok gid)
    (hloc : geo.locationsFor gid = []) : geoFeatureFor geo q = Except.ok none := by
  simp only [geoFeatureFor]
  rw [hsplit]
  simp only [hloc]

theorem geoFeatureFor_empty_coords (geo : GeoDoc) (q gid : String) (ls : List GeoLocation)
    (hsplit : pyIndex (pySplitChar ':' q) 1 = Except.ok gid)
    (hloc : geo.locationsFor gid = GeoLocation.mk none :: ls) :
    geoFeatureFor geo q =
      Except.ok (some ⟨q, [], String.intercalate " / " (geo.nameTextsFor gid), []⟩) := by
  simp only [geoFeatureFor]
  rw [hsplit]
  simp only [hloc]

theorem get_geo_info_elements (places : List String) (geo : GeoDoc) (out : List GeoFeature)
    (h : get_geo_info places geo = Except.ok out) :
    (∀ f ∈ out, ∃ q ∈ places, geoFeatureFor geo q = Except.ok (some f)) ∧
    (∀ q ∈ places, ∀ f, geoFeatureFor geo q = Except.ok (some f) → f ∈ out) := by
  simp only [get_geo_info] at h
  cases hm : mapExcept (geoFeatureFor geo) places with
  | error e => rw [hm] at h; cases h
  | ok opts =>
    rw [hm] at h
    cases h
    have hf2 := mapExcept_ok_forall2 (geoFeatureFor geo) places opts hm
    constructor
    · intro f hf
      have hf3 : f ∈ opts.filterMap id := ((sortStable_perm _ _).mem_iff).mp hf
      rcases List.mem_filterMap.mp hf3 with ⟨o, ho, hoe⟩
      rcases forall2_mem_right hf2 o ho with ⟨q, hq, hr⟩
      have ho2 : o = some f := hoe
      rw [ho2] at hr
      exact ⟨q, hq, hr⟩
    · intro q hq f hf
      rcases forall2_mem_left hf2 q hq with ⟨o, ho, hr⟩
      have ho2 : o = some f := Except.ok.inj (hr.symm.trans hf)
      rw [ho2] at ho
      have hfm : f ∈ opts.filterMap id := List.mem_filterMap.mpr ⟨some f, ho, rfl⟩
      exact ((sortStable_perm _ _).mem_iff).mpr hfm

/-- C5 (amended): under get_geo_info a discovered place whose geographic
record has a location with no geodetic child still yields a feature whose
coordinates equal the empty list, while a place whose record has no
location sub-element is dropped: no feature of the output carries its
id. -/
theorem c5_geometry_policy (places : List String) (geo : GeoDoc) (pid gid : String)
    (out : List GeoFeature)
    (hsplit : pyIndex (pySplitChar ':' pid) 1 = Except.ok gid)
    (hok : get_geo_info places geo = Except.ok out) :
    (geo.locationsFor gid = [] → ∀ f ∈ out, f.id ≠ pid) ∧
    (∀ ls, geo.locationsFor gid = GeoLocation.mk none :: ls → pid ∈ places →
      ∃ f ∈ out, f.id = pid ∧ f.coordinates = []) := by
  have hel := get_geo_info_elements places geo out hok
  constructor
  · intro hloc f hf hid
    rcases hel.1 f hf with ⟨q, hq, hr⟩
    have hfq : f.id = q := geoFeatureFor_id geo q f hr
    rw [hfq] at hid
    rw [hid] at hr
    rw [geoFeatureFor_no_location geo pid gid hsplit hloc] at hr
    exact Option.noConfusion (Except.ok.inj hr)
  · intro ls hloc hmem
    have hr := geoFeatureFor_empty_coords geo pid gid ls hsplit hloc
    have hf := hel.2 pid hmem _ hr
    exact ⟨_, hf, rfl, rfl⟩

/-- C5 witness: place geo:p2 whose record has a location without the
geodetic child appears in the output with empty coordinates. -/
theorem c5_geometry_policy_witness :
    (c5geoNoGeoChild.locationsFor "p2" = [] →
      ∀ f ∈ [GeoFeature.mk "geo:p2" [] "P2" []], f.id ≠ "geo:p2") ∧
    (∀ ls, c5geoNoGeoChild.locationsFor "p2" = GeoLocation.mk none :: ls →
      "geo:p2" ∈ ["geo:p2"] →
      ∃ f ∈ [GeoFeature.mk "geo:p2" [] "P2" []], f.id = "geo:p2" ∧ f.coordinates = []) :=
  c5_geometry_policy ["geo:p2"] c5geoNoGeoChild "geo:p2" "p2"
    [GeoFeature.mk "geo:p2" [] "P2" []] rfl rfl

theorem mkHeading_ok_shape (names cats : List (Option String × String)) (counts : Counts)
    (k : Option String) (hd : Heading) (h : mkHeading names cats counts k = Except.ok hd) :
    ∃ title c cat, hd = Heading.featureH k title c cat ∧ dictGet? counts k = some c := by
  simp only [mkHeading, pyDictGet] at h
  cases h1 : dictGet? names k with
  | none => simp only [h1] at h; cases h
  | some title =>
    simp only [h1] at h
    cases h2 : dictGet? counts k with
    | none => simp only [h2] at h; cases h
    | some c =>
      simp only [h2] at h
      cases h3 : dictGet? cats k with
      | none => simp only [h3] at h; cases h
      | some cat =>
        simp only [h3] at h
        cases h
        exact ⟨title, c, cat, rfl, rfl⟩

/-- C6 (amended): a successful column_headings result starts with the
fixed name entry, its tail is one feature heading per ft_name_dict key
(as a permutation) sorted by descending observation count — but the tie
order between equal counts is the corpus insertion order, as the
counterexample shows, not a secondary key. -/
theorem c6_column_headings_sorted (names cats : List (Option String × String))
    (counts : Counts) (out : List Heading)
    (h : column_headings names cats counts = Except.ok out) :
    ∃ t, out = Heading.nameH :: t ∧
      t.Pairwise (fun a b => Heading.countOf b ≤ Heading.countOf a) ∧
      (t.map Heading.keyOf).Perm (names.map Prod.fst) ∧
      ∀ hd ∈ t, ∃ title cat,
        hd = Heading.featureH (Heading.keyOf hd) title (Heading.countOf hd) cat := by
  simp only [column_headings] at h
  cases hm : mapExcept (mkHeading names cats counts)
      (sortStable (fun a b => decide (dictGetD counts b 0 ≤ dictGetD counts a 0))
        (names.map (fun p => p.1))) with
  | error e => rw [hm] at h; cases h
  | ok hs =>
    rw [hm] at h
    cases h
    have hf2 := mapExcept_ok_forall2 (mkHeading names cats counts) _ hs hm
    have hbase : (sortStable (fun a b => decide (dictGetD counts b 0 ≤ dictGetD counts a 0))
        (names.map (fun p => p.1))).Pairwise
        (fun a b => decide (dictGetD counts b 0 ≤ dictGetD counts a 0) = true) := by
      refine pairwise_sortStable _ ?_ ?_ _
      · intro a b c hab hbc
        have hab2 := of_decide_eq_true hab
        have hbc2 := of_decide_eq_true hbc
        exact decide_eq_true (Nat.le_trans hbc2 hab2)
      · intro a b
        cases Nat.le_total (dictGetD counts b 0) (dictGetD counts a 0) with
        | inl h1 => exact Or.inl (decide_eq_true h1)
        | inr h1 => exact Or.inr (decide_eq_true h1)
    refine ⟨hs, rfl, ?_, ?_, ?_⟩
    · refine pairwise_of_forall2 hf2 hbase ?_
      intro a b x y hax hby hab
      rcases mkHeading_ok_shape names cats counts a x hax with ⟨t1, c1, g1, he1, hc1⟩
      rcases mkHeading_ok_shape names cats counts b y hby with ⟨t2, c2, g2, he2, hc2⟩
      have hx : Heading.countOf x = dictGetD counts a 0 := by
        rw [he1, dictGetD, hc1]; rfl
      have hy : Heading.countOf y = dictGetD counts b 0 := by
        rw [he2, dictGetD, hc2]; rfl
      rw [hx, hy]
      exact of_decide_eq_true hab
    · have hmap : hs.map Heading.keyOf =
          (sortStable (fun a b => decide (dictGetD counts b 0 ≤ dictGetD counts a 0))
            (names.map (fun p => p.1))).map id := by
        refine forall2_map_eq hf2 id Heading.keyOf ?_
        intro a b hr
        rcases mkHeading_ok_shape names cats counts a b hr with ⟨t1, c1, g1, he1, _⟩
        rw [he1]
        rfl
      rw [hmap, List.map_id]
      exact (sortStable_perm _ _).trans (by rw [show (fun p => p.1) =
        (Prod.fst : Option String × String → Option String) from rfl])
    · intro hd hmem
      rcases forall2_mem_right hf2 hd hmem with ⟨k, hk, hr⟩
      rcases mkHeading_ok_shape names cats counts k hd hr with ⟨t1, c1, g1, he1, _⟩
      refine ⟨t1, g1, ?_⟩
      rw [he1]
      rfl

/-- C6 witness: the amended statement instantiated on the A=3, B=7, C=3
corpus in insertion order A, B, C. -/
theorem c6_column_headings_sorted_witness :
    ∃ t, [Heading.nameH, Heading.featureH (some "B") "B" 7 "c",
        Heading.featureH (some "A") "A" 3 "c", Heading.featureH (some "C") "C" 3 "c"] =
      Heading.nameH :: t ∧
      t.Pairwise (fun a b => Heading.countOf b ≤ Heading.countOf a) ∧
      (t.map Heading.keyOf).Perm (c6names1.map Prod.fst) ∧
      ∀ hd ∈ t, ∃ title cat,
        hd = Heading.featureH (Heading.keyOf hd) title (Heading.countOf hd) cat :=
  c6_column_headings_sorted c6names1 c6cats c6counts
    [Heading.nameH, Heading.featureH (some "B") "B" 7 "c",
      Heading.featureH (some "A") "A" 3 "c", Heading.featureH (some "C") "C" 3 "c"] rfl

end Wibarab
